import Mathlib

/-!
Verification of the `ElfObject` header-parsing core (pcsx2 `Elfheader.cpp`).

The byte buffer is modelled as a `List Nat` (one entry per byte); reads past
the end of the buffer yield 0 via `List.getD`, making the partiality of the
C++ pointer reads explicit.  Machine integers are `Nat`/`Int` with explicit
`% 2^32` where 32-bit overflow matters.
-/

/-- Read one byte of the buffer; out-of-range reads give 0. -/
def readByte (d : List Nat) (i : Nat) : Nat :=
  d.getD i 0

/-- Decode a little-endian 16-bit value at byte offset `i`. -/
def readLE16 (d : List Nat) (i : Nat) : Nat :=
  readByte d i + 256 * readByte d (i + 1)

/-- Decode a little-endian 32-bit value at byte offset `i`. -/
def readLE32 (d : List Nat) (i : Nat) : Nat :=
  readByte d i + 256 * readByte d (i + 1) + 65536 * readByte d (i + 2) +
    16777216 * readByte d (i + 3)

/-- Modelled from the spec: the 52-byte ELF header layout.  `Elfheader.h`
(where `ELF_HEADER` is declared) is not part of the shown sources; the field
list and the 52-byte total come from the spec's data model (standard ELF32
little-endian layout). -/
structure ELF_HEADER where
  e_type : Nat
  e_machine : Nat
  e_version : Nat
  e_entry : Nat
  e_phoff : Nat
  e_shoff : Nat
  e_flags : Nat
  e_ehsize : Nat
  e_phentsize : Nat
  e_phnum : Nat
  e_shentsize : Nat
  e_shnum : Nat
  e_shstrndx : Nat
  deriving DecidableEq

/-- Modelled from the spec: interpreting the first 52 bytes of the buffer as
the ELF header (the C++ `GetHeader()` reinterpret-cast, declared in the
missing `Elfheader.h`). -/
def decodeElfHeader (d : List Nat) : ELF_HEADER where
  e_type := readLE16 d 16
  e_machine := readLE16 d 18
  e_version := readLE32 d 20
  e_entry := readLE32 d 24
  e_phoff := readLE32 d 28
  e_shoff := readLE32 d 32
  e_flags := readLE32 d 36
  e_ehsize := readLE16 d 40
  e_phentsize := readLE16 d 42
  e_phnum := readLE16 d 44
  e_shentsize := readLE16 d 46
  e_shnum := readLE16 d 48
  e_shstrndx := readLE16 d 50

/-- Modelled from the spec: a program-header record is 32 bytes
(`sizeof(ELF_PHR)`). -/
def phrSize : Nat := 32

/-- Modelled from the spec: a section-header record is 40 bytes
(`sizeof(ELF_SHR)`). -/
def shrSize : Nat := 40

/-- `proghead[i].p_vaddr`: byte offset `base + 32*i + 8`. -/
def phVaddr (d : List Nat) (base i : Nat) : Nat :=
  readLE32 d (base + phrSize * i + 8)

/-- `proghead[i].p_memsz`: byte offset `base + 32*i + 20`. -/
def phMemsz (d : List Nat) (base i : Nat) : Nat :=
  readLE32 d (base + phrSize * i + 20)

/-- `secthead[i].sh_name`: byte offset `base + 40*i`. -/
def shName (d : List Nat) (base i : Nat) : Nat :=
  readLE32 d (base + shrSize * i)

/-- `secthead[i].sh_offset`: byte offset `base + 40*i + 16`. -/
def shOffset (d : List Nat) (base i : Nat) : Nat :=
  readLE32 d (base + shrSize * i + 16)

/-- The first 8 bytes of a valid PS-EXE header: ASCII "PS-X EXE"
(`expected_id` in `HasValidPSXHeader`). -/
def expectedPSXId : List Nat :=
  [80, 83, 45, 88, 32, 69, 88, 69]

/-- `PSXEXEHeader::initial_pc`, at byte offset 0x10 of the buffer. -/
def psxInitialPC (d : List Nat) : Nat :=
  readLE32 d 16

/-- `PSXEXEHeader::file_size`, at byte offset 0x1C of the buffer. -/
def psxFileSize (d : List Nat) : Nat :=
  readLE32 d 28

/-- The state of an `ElfObject`: owned byte buffer, format flag, and the two
optional header-table views.  A view is modelled by the byte offset it was
anchored at (the C++ stores `&data[offset]`).  Freshly constructed objects
have both views absent (spec: constructed empty, populated once by a load). -/
structure ElfObject where
  data : List Nat
  isPSXElf : Bool
  proghead : Option Nat
  secthead : Option Nat
  deriving DecidableEq

/-- The error kinds of the loading layer (spec section 7). -/
inductive ElfError where
  | NotFound
  | TooLarge
  | Truncated
  | IoError
  deriving DecidableEq

/-- `ElfObject::CheckElfSize`: `some e` means the check fails with error `e`
(the C++ sets the error string and returns false), `none` means accepted. -/
def CheckElfSize (size : Int) : Option ElfError :=
  if size > 0xfffffff then some ElfError.TooLarge
  else if size = -1 then some ElfError.NotFound
  else if size ≤ 52 then some ElfError.Truncated
  else none

/-- `ElfObject::InitElfHeaders`: no-op for PS-EXE; otherwise anchors
`proghead` at `e_phoff` when `e_phnum > 0` and `e_phoff + 32 ≤ data.size()`,
and `secthead` at `e_shoff` when `e_shnum > 0` and `e_shoff + 40 ≤
data.size()` (the remaining body only emits diagnostics). -/
def InitElfHeaders (e : ElfObject) : ElfObject :=
  if e.isPSXElf then e
  else
    let h := decodeElfHeader e.data
    let e1 := if 0 < h.e_phnum ∧ h.e_phoff + phrSize ≤ e.data.length
      then { e with proghead := some h.e_phoff } else e
    if 0 < h.e_shnum ∧ h.e_shoff + shrSize ≤ e.data.length
      then { e1 with secthead := some h.e_shoff } else e1

/-- `ElfObject::HasValidPSXHeader`. -/
def HasValidPSXHeader (d : List Nat) : Bool :=
  if d.length < 2048 then false
  else if d.take 8 = expectedPSXId then true
  else false

/-- `ElfObject::HasProgramHeaders`: `proghead != nullptr`. -/
def HasProgramHeaders (e : ElfObject) : Bool :=
  e.proghead.isSome

/-- `ElfObject::HasSectionHeaders`: `secthead != nullptr`. -/
def HasSectionHeaders (e : ElfObject) : Bool :=
  e.secthead.isSome

/-- `ElfObject::HasHeaders`. -/
def HasHeaders (e : ElfObject) : Bool :=
  HasProgramHeaders e && HasSectionHeaders e

/-- `ElfObject::GetEntryPoint`. -/
def GetEntryPoint (e : ElfObject) : Nat :=
  if e.isPSXElf then
    if HasValidPSXHeader e.data then psxInitialPC e.data else 0xFFFFFFFF
  else
    (decodeElfHeader e.data).e_entry

/-- The loop body of `GetTextRange`: scan records `i, i+1, ...` (`fuel` many)
and return the first `(p_vaddr, p_memsz)` whose interval catches `entry`.
The C++ computes `start + size` in 32-bit unsigned arithmetic, hence the
`% 2^32`. -/
def textScan (d : List Nat) (base entry : Nat) (i : Nat) : Nat → Nat × Nat
  | 0 => (0, 0)
  | fuel + 1 =>
    let start := phVaddr d base i
    let size := phMemsz d base i
    if start ≤ entry ∧ entry < (start + size) % 4294967296 then (start, size)
    else textScan d base entry (i + 1) fuel

/-- `ElfObject::GetTextRange`. -/
def GetTextRange (e : ElfObject) : Nat × Nat :=
  match e.isPSXElf, e.proghead with
  | false, some base =>
    let h := decodeElfHeader e.data
    textScan e.data base h.e_entry 0 h.e_phnum
  | _, _ => (0, 0)

/-- The condition of `GetTextRange`'s loop on record `i` (32-bit sum). -/
def phContains (d : List Nat) (base entry i : Nat) : Bool :=
  decide (phVaddr d base i ≤ entry ∧
    entry < (phVaddr d base i + phMemsz d base i) % 4294967296)

/-- The loop of `GetCRC`: `i` iterations remain, the word pointer is at word
index `j`, accumulator `acc`. -/
def crcAux (d : List Nat) : Nat → Nat → Nat → Nat
  | acc, _, 0 => acc
  | acc, j, i + 1 => crcAux d (acc ^^^ readLE32 d (4 * j)) (j + 1) i

/-- `ElfObject::GetCRC`: the C++ truncates `data.size()` to `u32` before
dividing by 4 (`static_cast<u32>(data.size()) / 4`). -/
def GetCRC (d : List Nat) : Nat :=
  crcAux d 0 0 ((d.length % 4294967296) / 4)

/-- Modelled from the spec: a located disc-image directory entry (the
`IsoReader` collaborator is external to the shown sources).  `length_le` is
the declared 32-bit entry length; `content` is `some bytes` when the
subsequent `ReadFile` succeeds and `none` when it fails. -/
structure IsoEntry where
  length_le : Nat
  content : Option (List Nat)
  deriving DecidableEq

/-- `ElfObject::OpenIsoFile`: locate, size-check the declared length, read,
then `InitElfHeaders`.  The locate step is abstracted to its result. -/
def OpenIsoFile (locate : Option IsoEntry) (isPSXElf_ : Bool) :
    Except ElfError ElfObject :=
  match locate with
  | none => Except.error ElfError.NotFound
  | some de =>
    match CheckElfSize (de.length_le : Int) with
    | some e => Except.error e
    | none =>
      match de.content with
      | none => Except.error ElfError.IoError
      | some bytes =>
        Except.ok (InitElfHeaders ⟨bytes, isPSXElf_, none, none⟩)

/-- `ElfObject::OpenFile`: open/stat, size-check only when not a PS-EXE
load, read the whole file, then `InitElfHeaders`.  `statSize` is `none` when
open/stat fails; `readBytes` is `none` when the `fread` fails. -/
def OpenFile (statSize : Option Int) (readBytes : Option (List Nat))
    (isPSXElf_ : Bool) : Except ElfError ElfObject :=
  match statSize with
  | none => Except.error ElfError.IoError
  | some sz =>
    if isPSXElf_ = false ∧ (CheckElfSize sz).isSome then
      Except.error ((CheckElfSize sz).getD ElfError.IoError)
    else
      match readBytes with
      | none => Except.error ElfError.IoError
      | some bytes =>
        Except.ok (InitElfHeaders ⟨bytes, isPSXElf_, none, none⟩)

/-- The guard of `LoadSectionHeaders`: it returns early unless `secthead`
is set and `e_shoff ≤ data.size()`. -/
def loadSectionHeadersRuns (e : ElfObject) : Bool :=
  e.secthead.isSome && decide ((decodeElfHeader e.data).e_shoff ≤ e.data.length)

/-- `section_names_offset` in `LoadSectionHeaders`: the `sh_offset` of the
section-header entry at index `e_shstrndx` (index 0 when the field is the
0xffff escape value).  No bounds check is applied to the index or offset. -/
def sectionNamesOffset (d : List Nat) (base : Nat) : Nat :=
  let h := decodeElfHeader d
  shOffset d base (if h.e_shstrndx = 65535 then 0 else h.e_shstrndx)

/-- The buffer index at which `LoadSectionHeaders` reads entry `i`'s name
string: `sections_names + secthead[i].sh_name`, with no clamp. -/
def sectionNameReadIndex (d : List Nat) (base i : Nat) : Nat :=
  sectionNamesOffset d base + shName d base i

instance {ε α : Type} [DecidableEq ε] [DecidableEq α] : DecidableEq (Except ε α) := fun a b =>
  match a, b with
  | Except.error x, Except.error y =>
    if h : x = y then isTrue (by rw [h]) else isFalse (fun hc => by cases hc; exact h rfl)
  | Except.error _, Except.ok _ => isFalse (fun hc => by cases hc)
  | Except.ok _, Except.error _ => isFalse (fun hc => by cases hc)
  | Except.ok x, Except.ok y =>
    if h : x = y then isTrue (by rw [h]) else isFalse (fun hc => by cases hc; exact h rfl)

/-- A 2048-byte PS-EXE buffer: magic "PS-X EXE", `initial_pc` = 0x80010000,
everything else zero. -/
def psxBuf : List Nat :=
  expectedPSXId ++ List.replicate 8 0 ++ [0, 0, 1, 128] ++ List.replicate 2028 0

/-- `psxBuf` with the last magic byte corrupted (E → F). -/
def psxBadMagicBuf : List Nat :=
  [80, 83, 45, 88, 32, 69, 88, 70] ++ List.replicate 8 0 ++ [0, 0, 1, 128] ++
    List.replicate 2028 0

/-- `psxBuf` with a declared `file_size` of 0xFFFFFFFF, far larger than the
buffer itself. -/
def psxOversizeBuf : List Nat :=
  expectedPSXId ++ List.replicate 8 0 ++ [0, 0, 1, 128] ++ List.replicate 8 0 ++
    [255, 255, 255, 255] ++ List.replicate 2016 0

/-- Shorthand for the XOR-fold `GetCRC` performs over word indices `0..n-1`
of an abstract word sequence `w`. -/
def xorFold (w : Nat → Nat) (n : Nat) : Nat :=
  (List.range n).foldl (fun a i => a ^^^ w i) 0

/-- An 84-byte ELF image: 52-byte header with `e_entry` = 0x100, `e_phoff` =
52, `e_phnum` = 1, followed by one 32-byte program header with `p_vaddr` =
0x100 and `p_memsz` = 16. -/
def textElfData : List Nat :=
  List.replicate 24 0 ++ [0, 1, 0, 0] ++ [52, 0, 0, 0] ++ List.replicate 12 0 ++
    [1, 0] ++ List.replicate 6 0 ++
    List.replicate 8 0 ++ [0, 1, 0, 0] ++ List.replicate 8 0 ++ [16, 0, 0, 0] ++
    List.replicate 8 0

/-- The `ElfObject` resulting from loading `textElfData` as ELF. -/
def textElf : ElfObject :=
  InitElfHeaders ⟨textElfData, false, none, none⟩

/-- A 92-byte ELF image: 52-byte header with `e_shoff` = 52, `e_shnum` = 1,
`e_shstrndx` = 0, followed by one 40-byte section header whose `sh_offset`
is 0xFFFF — far outside the buffer. -/
def badSectData : List Nat :=
  List.replicate 32 0 ++ [52, 0, 0, 0] ++ List.replicate 12 0 ++ [1, 0] ++ [0, 0] ++
    List.replicate 16 0 ++ [255, 255, 0, 0] ++ List.replicate 20 0

/-- The `ElfObject` resulting from loading `badSectData` as ELF. -/
def badSectElf : ElfObject :=
  InitElfHeaders ⟨badSectData, false, none, none⟩

/-- A buffer of 2^32 + 4 bytes: 2^32 zero bytes followed by the word 1.
Its byte count truncated to `u32` is 4, so `GetCRC` processes only word 0. -/
def bigBuf : List Nat :=
  List.replicate 4294967296 0 ++ [1, 0, 0, 0]

/-- An 8-byte buffer holding the little-endian words 1, 2. -/
def crcBufA : List Nat :=
  [1, 0, 0, 0, 2, 0, 0, 0]

/-- `crcBufA` with its two 32-bit words swapped. -/
def crcBufB : List Nat :=
  [2, 0, 0, 0, 1, 0, 0, 0]

/-- C2: the size-check rule `CheckElfSize`, its clauses read in the order the
rule states them: a length over 0x0FFFFFFF fails with `TooLarge`; the sentinel
-1 fails with `NotFound`; a remaining length ≤ 52 (the fixed ELF-header size)
fails with `Truncated`; every other length is accepted. -/
theorem checkElfSize_rule (L : Int) :
    (0xfffffff < L → CheckElfSize L = some ElfError.TooLarge) ∧
    (L = -1 → CheckElfSize L = some ElfError.NotFound) ∧
    (L ≤ 52 → L ≠ -1 → CheckElfSize L = some ElfError.Truncated) ∧
    (52 < L → L ≤ 0xfffffff → CheckElfSize L = none) := by
  refine ⟨fun h => ?_, fun h => ?_, fun h1 h2 => ?_, fun h1 h2 => ?_⟩
  · rw [CheckElfSize, if_pos h]
  · subst h; decide
  · rw [CheckElfSize, if_neg (by omega), if_neg h2, if_pos h1]
  · rw [CheckElfSize, if_neg (by omega), if_neg (by omega), if_neg (by omega)]

/-- Witness for C2: each clause of the rule evaluated at a concrete length. -/
theorem checkElfSize_rule_witness :
    CheckElfSize 268435456 = some ElfError.TooLarge ∧
    CheckElfSize (-1) = some ElfError.NotFound ∧
    CheckElfSize 0 = some ElfError.Truncated ∧
    CheckElfSize 100 = none :=
  ⟨(checkElfSize_rule 268435456).1 (by decide),
   (checkElfSize_rule (-1)).2.1 rfl,
   (checkElfSize_rule 0).2.2.1 (by decide) (by decide),
   (checkElfSize_rule 100).2.2.2 (by decide) (by decide)⟩

/-- C3 counterexample: length -1 is ≤ 52, yet the size check rejects it with
`NotFound`, not `Truncated` (the sentinel clause runs first). -/
theorem checkElfSize_neg_one_not_truncated :
    (-1 : Int) ≤ 52 ∧ CheckElfSize (-1) ≠ some ElfError.Truncated ∧
    CheckElfSize (-1) = some ElfError.NotFound := by decide

/-- C3 amended: for every length L ≤ 52 other than the sentinel -1 (which is
rejected with `NotFound`), the size check rejects L with `Truncated`. -/
theorem checkElfSize_small_truncated (L : Int) (h1 : L ≤ 52) (h2 : L ≠ -1) :
    CheckElfSize L = some ElfError.Truncated := by
  rw [CheckElfSize, if_neg (by omega), if_neg h2, if_pos h1]

/-- Witness for the amended C3 at length 52. -/
theorem checkElfSize_small_truncated_witness :
    CheckElfSize 52 = some ElfError.Truncated :=
  checkElfSize_small_truncated 52 (by decide) (by decide)

/-- C1 counterexample: a console-executable (PS-EXE) disc-image load whose
located entry declares length 0x10000000 fails with `TooLarge` — so
`OpenIsoFile` does apply the size check to PS-EXE loads, contrary to the
claim that the check runs only for ELF-format loads. -/
theorem openIsoFile_psx_size_checked :
    OpenIsoFile (some ⟨268435456, some (List.replicate 2048 0)⟩) true =
      Except.error ElfError.TooLarge := by decide

/-- C1 amended: in `OpenIsoFile` the size-check rule is applied to the
located entry's declared length unconditionally, for ELF-format and
console-executable loads alike: whenever the check fails, the load fails
with that error regardless of the format flag.  (The ELF-only gating exists
in `OpenFile`, not in `OpenIsoFile`.) -/
theorem openIsoFile_size_check_unconditional (de : IsoEntry) (psx : Bool)
    (err : ElfError) (h : CheckElfSize (de.length_le : Int) = some err) :
    OpenIsoFile (some de) psx = Except.error err := by
  simp only [OpenIsoFile, h]

/-- Witness for the amended C1: a PS-EXE disc load with declared length 10
fails with `Truncated`. -/
theorem openIsoFile_size_check_unconditional_witness :
    OpenIsoFile (some ⟨10, some (List.replicate 2048 0)⟩) true =
      Except.error ElfError.Truncated :=
  openIsoFile_size_check_unconditional ⟨10, some (List.replicate 2048 0)⟩ true
    ElfError.Truncated (by decide)

/-- C5: on a console-executable image, `GetEntryPoint` returns the header's
`initial_pc` when the console header validates and the all-ones sentinel
0xFFFFFFFF otherwise; on an ELF image it returns the ELF header's `e_entry`
with no validity gate. -/
theorem getEntryPoint_spec (e : ElfObject) :
    (e.isPSXElf = true → HasValidPSXHeader e.data = true →
      GetEntryPoint e = psxInitialPC e.data) ∧
    (e.isPSXElf = true → HasValidPSXHeader e.data = false →
      GetEntryPoint e = 4294967295) ∧
    (e.isPSXElf = false → GetEntryPoint e = (decodeElfHeader e.data).e_entry) := by
  refine ⟨fun h1 h2 => ?_, fun h1 h2 => ?_, fun h1 => ?_⟩
  · simp [GetEntryPoint, h1, h2]
  · simp [GetEntryPoint, h1, h2]
  · simp [GetEntryPoint, h1]

lemma psxBuf_length : psxBuf.length = 2048 := by
  rw [psxBuf]; simp only [List.length_append, List.length_replicate]; decide

lemma psxBadMagicBuf_length : psxBadMagicBuf.length = 2048 := by
  rw [psxBadMagicBuf]; simp only [List.length_append, List.length_replicate]; decide

lemma psxOversizeBuf_length : psxOversizeBuf.length = 2048 := by
  rw [psxOversizeBuf]; simp only [List.length_append, List.length_replicate]; decide

lemma take_eight_of_append (a rest : List Nat) (h : a.length = 8) :
    (a ++ rest).take 8 = a := by
  rw [← h, List.take_left]

lemma psxBuf_take8 : psxBuf.take 8 = expectedPSXId := by
  rw [psxBuf]; simp only [List.append_assoc]
  exact take_eight_of_append _ _ rfl

lemma psxOversizeBuf_take8 : psxOversizeBuf.take 8 = expectedPSXId := by
  rw [psxOversizeBuf]; simp only [List.append_assoc]
  exact take_eight_of_append _ _ rfl

lemma psxBadMagicBuf_take8 :
    psxBadMagicBuf.take 8 = [80, 83, 45, 88, 32, 69, 88, 70] := by
  rw [psxBadMagicBuf]; simp only [List.append_assoc]
  exact take_eight_of_append _ _ rfl

lemma psxBuf_valid : HasValidPSXHeader psxBuf = true := by
  rw [HasValidPSXHeader, if_neg (by rw [psxBuf_length]; omega), if_pos psxBuf_take8]

lemma psxBadMagicBuf_invalid : HasValidPSXHeader psxBadMagicBuf = false := by
  rw [HasValidPSXHeader, if_neg (by rw [psxBadMagicBuf_length]; omega),
    if_neg (by rw [psxBadMagicBuf_take8]; decide)]

/-- Witness for C5: a valid PS-EXE buffer yields its `initial_pc`
(0x80010000), corrupting the magic yields 0xFFFFFFFF, and the same bytes
loaded as ELF yield `e_entry` (here 0). -/
theorem getEntryPoint_spec_witness :
    GetEntryPoint ⟨psxBuf, true, none, none⟩ = 2147549184 ∧
    GetEntryPoint ⟨psxBadMagicBuf, true, none, none⟩ = 4294967295 ∧
    GetEntryPoint ⟨psxBuf, false, none, none⟩ = 0 := by
  refine ⟨?_, ?_, ?_⟩
  · have h := (getEntryPoint_spec ⟨psxBuf, true, none, none⟩).1 rfl psxBuf_valid
    rw [h]; decide
  · exact (getEntryPoint_spec ⟨psxBadMagicBuf, true, none, none⟩).2.1 rfl
      psxBadMagicBuf_invalid
  · have h := (getEntryPoint_spec ⟨psxBuf, false, none, none⟩).2.2 rfl
    rw [h]; decide

/-- C6: `HasValidPSXHeader` is true exactly when the buffer holds at least
2048 bytes and begins with the 8-byte magic "PS-X EXE"; in particular the
result depends only on the buffer length and the first 8 bytes, so an
oversized declared `file_size` (a non-fatal diagnostic) never makes it
false. -/
theorem hasValidPSXHeader_spec (d : List Nat) :
    (HasValidPSXHeader d = true ↔ 2048 ≤ d.length ∧ d.take 8 = expectedPSXId) ∧
    (∀ d2 : List Nat, d2.length = d.length → d2.take 8 = d.take 8 →
      HasValidPSXHeader d2 = HasValidPSXHeader d) := by
  constructor
  · rw [HasValidPSXHeader]
    split_ifs with h1 h2
    · simp; omega
    · simp [h2]; omega
    · simp [h2]
  · intro d2 hlen htake
    rw [HasValidPSXHeader, HasValidPSXHeader, hlen, htake]

/-- Witness for C6: the oversized-`file_size` buffer validates exactly like
the plain one, and both are accepted. -/
theorem hasValidPSXHeader_spec_witness :
    HasValidPSXHeader psxOversizeBuf = HasValidPSXHeader psxBuf ∧
    HasValidPSXHeader psxBuf = true ∧
    2048 ≤ psxOversizeBuf.length ∧
    psxFileSize psxOversizeBuf + 2048 > psxOversizeBuf.length := by
  refine ⟨?_, ?_, psxOversizeBuf_length.symm.le, ?_⟩
  · exact (hasValidPSXHeader_spec psxBuf).2 psxOversizeBuf
      (by rw [psxOversizeBuf_length, psxBuf_length])
      (by rw [psxOversizeBuf_take8, psxBuf_take8])
  · exact (hasValidPSXHeader_spec psxBuf).1.mpr ⟨psxBuf_length.symm.le, psxBuf_take8⟩
  · have hfs : psxFileSize psxOversizeBuf = 4294967295 := by decide
    rw [hfs, psxOversizeBuf_length]; omega

lemma crcAux_eq_foldl (d : List Nat) : ∀ (i acc j : Nat),
    crcAux d acc j i =
      (List.range' j i).foldl (fun a k => a ^^^ readLE32 d (4 * k)) acc := by
  intro i
  induction i with
  | zero => intro acc j; rfl
  | succ m ih =>
    intro acc j
    rw [show List.range' j (m + 1) = j :: List.range' (j + 1) m from
      List.range'_succ j m 1]
    rw [List.foldl_cons, ← ih]
    rfl

lemma getCRC_eq_xorFold (d : List Nat) :
    GetCRC d = xorFold (fun i => readLE32 d (4 * i)) ((d.length % 4294967296) / 4) := by
  rw [GetCRC, crcAux_eq_foldl, xorFold, List.range_eq_range']

lemma xorFold_succ (w : Nat → Nat) (n : Nat) :
    xorFold w (n + 1) = xorFold w n ^^^ w n := by
  rw [xorFold, List.range_succ, List.foldl_append, xorFold]
  rfl

lemma xorFold_congr (w w2 : Nat → Nat) (n : Nat) (h : ∀ i, i < n → w i = w2 i) :
    xorFold w n = xorFold w2 n := by
  induction n with
  | zero => rfl
  | succ m ih =>
    rw [xorFold_succ, xorFold_succ, ih (fun i hi => h i (by omega)), h m (by omega)]

lemma xor_left_comm (a b c : Nat) : a ^^^ (b ^^^ c) = b ^^^ (a ^^^ c) := by
  rw [← Nat.xor_assoc, Nat.xor_comm a b, Nat.xor_assoc]

lemma xor_cancel_left (a b : Nat) : a ^^^ (a ^^^ b) = b := by
  rw [← Nat.xor_assoc, Nat.xor_self, Nat.zero_xor]

lemma xorFold_update (w : Nat → Nat) (j v : Nat) : ∀ n : Nat,
    xorFold (Function.update w j v) n =
      if j < n then xorFold w n ^^^ w j ^^^ v else xorFold w n := by
  intro n
  induction n with
  | zero => rw [if_neg (by omega)]; rfl
  | succ m ih =>
    rw [xorFold_succ, xorFold_succ, ih]
    by_cases hjm : j < m
    · rw [if_pos hjm, if_pos (by omega), Function.update_noteq (by omega : m ≠ j)]
      simp only [Nat.xor_assoc]
      rw [Nat.xor_comm v (w m), xor_left_comm (w j) (w m) v]
    · by_cases hjm2 : j = m
      · subst hjm2
        rw [if_neg hjm, if_pos (by omega), Function.update_same]
        rw [Nat.xor_assoc (xorFold w j) (w j) (w j), Nat.xor_self, Nat.xor_zero]
      · rw [if_neg hjm, if_neg (by omega), Function.update_noteq (fun hc => hjm2 hc.symm)]

/-- C7 amended: `GetCRC` equals the exclusive-or of the buffer's first
`floor((buffer.length mod 2^32) / 4)` little-endian 32-bit words — the byte
count is truncated to `u32` before dividing, so for buffers shorter than
2^32 bytes this is `floor(length / 4)` words with any trailing 1-3 bytes
ignored (and a buffer shorter than 4 bytes yields 0). -/
theorem getCRC_xor_words (d : List Nat) :
    GetCRC d = (List.range ((d.length % 4294967296) / 4)).foldl
      (fun acc j => acc ^^^ readLE32 d (4 * j)) 0 := by
  rw [getCRC_eq_xorFold]; rfl

lemma bigBuf_length : bigBuf.length = 4294967300 := by
  rw [bigBuf]; simp only [List.length_append, List.length_replicate]; rfl

lemma getD_replicate_zero (n m : Nat) : (List.replicate n 0).getD m 0 = 0 := by
  by_cases h : m < n
  · simp [List.getD_eq_getElem?_getD, List.getElem?_replicate, h]
  · simp [List.getD_eq_getElem?_getD, List.getElem?_replicate, h]

lemma bigBuf_byte_low (i : Nat) (h : i < 4294967296) : readByte bigBuf i = 0 := by
  rw [readByte, bigBuf,
    List.getD_append _ _ 0 i (by rw [List.length_replicate]; exact h),
    getD_replicate_zero]

lemma bigBuf_byte_high (t : Nat) :
    readByte bigBuf (4294967296 + t) = [1, 0, 0, 0].getD t 0 := by
  rw [readByte, bigBuf,
    List.getD_append_right _ _ 0 _ (by rw [List.length_replicate]; omega),
    List.length_replicate, Nat.add_sub_cancel_left]

lemma bigBuf_word_low (j : Nat) (h : j < 1073741824) : readLE32 bigBuf (4 * j) = 0 := by
  rw [readLE32, bigBuf_byte_low (4 * j) (by omega), bigBuf_byte_low _ (by omega),
    bigBuf_byte_low _ (by omega), bigBuf_byte_low _ (by omega)]

lemma bigBuf_word_high : readLE32 bigBuf 4294967296 = 1 := by
  have h0 : readByte bigBuf 4294967296 = 1 := by simpa using bigBuf_byte_high 0
  have h1 : readByte bigBuf (4294967296 + 1) = 0 := by simpa using bigBuf_byte_high 1
  have h2 : readByte bigBuf (4294967296 + 2) = 0 := by simpa using bigBuf_byte_high 2
  have h3 : readByte bigBuf (4294967296 + 3) = 0 := by simpa using bigBuf_byte_high 3
  rw [readLE32, h0, h1, h2, h3]

lemma xorFold_all_zero (w : Nat → Nat) : ∀ n : Nat,
    (∀ j, j < n → w j = 0) → xorFold w n = 0 := by
  intro n
  induction n with
  | zero => intro _; rfl
  | succ m ih =>
    intro h
    rw [xorFold_succ, ih (fun j hj => h j (by omega)), h m (by omega)]
    exact Nat.xor_self 0

lemma range_foldl_xor_eq (d : List Nat) (n : Nat) :
    (List.range n).foldl (fun acc j => acc ^^^ readLE32 d (4 * j)) 0 =
      xorFold (fun j => readLE32 d (4 * j)) n := rfl

lemma xorFold_succ_word (d : List Nat) (n : Nat) :
    xorFold (fun j => readLE32 d (4 * j)) (n + 1) =
      xorFold (fun j => readLE32 d (4 * j)) n ^^^ readLE32 d (4 * n) := by
  rw [xorFold_succ]

/-- C7 counterexample: on a buffer of 2^32 + 4 bytes (2^32 zero bytes then
the word 1) the code processes only `(length mod 2^32) / 4 = 1` word and
returns 0, while the claimed formula over `floor(length / 4)` words XORs in
the final word and yields 1. -/
theorem getCRC_trunc_counterexample :
    GetCRC bigBuf ≠ (List.range (bigBuf.length / 4)).foldl
      (fun acc j => acc ^^^ readLE32 bigBuf (4 * j)) 0 := by
  have hL : GetCRC bigBuf = 0 := by
    have e1 : GetCRC bigBuf = crcAux bigBuf 0 0 1 := by
      rw [GetCRC, bigBuf_length]
    rw [e1, show crcAux bigBuf 0 0 1 = 0 ^^^ readLE32 bigBuf (4 * 0) from rfl,
      bigBuf_word_low 0 (by norm_num)]
    exact Nat.xor_self 0
  have hR : (List.range (bigBuf.length / 4)).foldl
      (fun acc j => acc ^^^ readLE32 bigBuf (4 * j)) 0 = 1 := by
    have e4 : (4294967300 / 4 : Nat) = 1073741824 + 1 := by norm_num
    have w0 : xorFold (fun j => readLE32 bigBuf (4 * j)) 1073741824 = 0 :=
      xorFold_all_zero _ _ (fun j hj => bigBuf_word_low j hj)
    have whigh : readLE32 bigBuf (4 * 1073741824) = 1 := by
      rw [show (4 * 1073741824 : Nat) = 4294967296 from by norm_num, bigBuf_word_high]
    have hx := xorFold_succ_word bigBuf 1073741824
    have hfin : xorFold (fun j => readLE32 bigBuf (4 * j)) (1073741824 + 1) = 1 := by
      rw [hx, w0, whigh]
      exact Nat.zero_xor 1
    rw [bigBuf_length, range_foldl_xor_eq, e4, hfin]
  intro hc
  rw [hL, hR] at hc
  exact absurd hc (by decide)

/-- C8 amended: `GetCRC` is deterministic, and swapping two aligned 32-bit
words of the buffer never changes the result (XOR is commutative and
associative) — this is exactly the known non-injectivity the spec
acknowledges, rather than an order-sensitivity. -/
theorem getCRC_det_and_swap :
    (∀ d1 d2 : List Nat, d1 = d2 → GetCRC d1 = GetCRC d2) ∧
    (∀ (d1 d2 : List Nat) (j k : Nat),
      d1.length = d2.length →
      j < (d1.length % 4294967296) / 4 →
      k < (d1.length % 4294967296) / 4 →
      (∀ i, i < (d1.length % 4294967296) / 4 → i ≠ j → i ≠ k →
        readLE32 d2 (4 * i) = readLE32 d1 (4 * i)) →
      readLE32 d2 (4 * j) = readLE32 d1 (4 * k) →
      readLE32 d2 (4 * k) = readLE32 d1 (4 * j) →
      GetCRC d2 = GetCRC d1) := by
  constructor
  · intro d1 d2 h; rw [h]
  · intro d1 d2 j k hlen hj hk hother hswj hswk
    have h2 : GetCRC d2 = xorFold (fun i => readLE32 d2 (4 * i))
        ((d1.length % 4294967296) / 4) := by
      rw [getCRC_eq_xorFold, ← hlen]
    have h1 : GetCRC d1 = xorFold (fun i => readLE32 d1 (4 * i))
        ((d1.length % 4294967296) / 4) := getCRC_eq_xorFold d1
    rw [h1, h2]
    have hcong : xorFold (fun i => readLE32 d2 (4 * i)) ((d1.length % 4294967296) / 4) =
        xorFold (Function.update (Function.update (fun i => readLE32 d1 (4 * i)) j
          (readLE32 d1 (4 * k))) k (readLE32 d1 (4 * j)))
          ((d1.length % 4294967296) / 4) := by
      apply xorFold_congr
      intro i hi
      by_cases hik : i = k
      · subst hik
        rw [Function.update_same]
        exact hswk
      · rw [Function.update_noteq hik]
        by_cases hij : i = j
        · subst hij
          rw [Function.update_same]
          exact hswj
        · rw [Function.update_noteq hij]
          exact hother i hi hij hik
    rw [hcong, xorFold_update, if_pos hk, xorFold_update, if_pos hj,
      Function.update_apply]
    rw [show (if k = j then readLE32 d1 (4 * k) else readLE32 d1 (4 * k)) =
      readLE32 d1 (4 * k) from ite_self _]
    simp only [Nat.xor_assoc]
    rw [xor_cancel_left, Nat.xor_self, Nat.xor_zero]

/-- C8 counterexample: swapping the two distinct words of an 8-byte buffer
leaves `GetCRC` unchanged — the checksum is not order-sensitive, contrary to
the claim that such a swap changes the result. -/
theorem getCRC_swap_counterexample :
    readLE32 crcBufA 0 ≠ readLE32 crcBufA 4 ∧
    crcBufB.length = crcBufA.length ∧
    readLE32 crcBufB 0 = readLE32 crcBufA 4 ∧
    readLE32 crcBufB 4 = readLE32 crcBufA 0 ∧
    GetCRC crcBufB = GetCRC crcBufA := by decide

/-- Witness for C8: the swap-invariance applied to the concrete pair of
8-byte buffers with words (1, 2) and (2, 1). -/
theorem getCRC_det_and_swap_witness :
    GetCRC crcBufB = GetCRC crcBufA := by
  refine getCRC_det_and_swap.2 crcBufA crcBufB 0 1 (by decide) (by decide)
    (by decide) ?_ (by decide) (by decide)
  intro i hi h0 h1
  have hn : (crcBufA.length % 4294967296) / 4 = 2 := by decide
  rw [hn] at hi
  exact (h1 (by omega)).elim

lemma textScan_eq_find (d : List Nat) (base entry : Nat) : ∀ (fuel i : Nat),
    textScan d base entry i fuel =
      (match (List.range' i fuel).find? (phContains d base entry) with
       | some j => (phVaddr d base j, phMemsz d base j)
       | none => (0, 0)) := by
  intro fuel
  induction fuel with
  | zero => intro i; rfl
  | succ m ih =>
    intro i
    rw [show List.range' i (m + 1) = i :: List.range' (i + 1) m from
      List.range'_succ i m 1]
    by_cases hc : phContains d base entry i
    · have hcp : phVaddr d base i ≤ entry ∧
          entry < (phVaddr d base i + phMemsz d base i) % 4294967296 := by
        simpa [phContains] using hc
      rw [List.find?_cons_of_pos _ hc]
      simp only [textScan]
      rw [if_pos hcp]
    · have hcp : ¬(phVaddr d base i ≤ entry ∧
          entry < (phVaddr d base i + phMemsz d base i) % 4294967296) := by
        simpa [phContains] using hc
      rw [List.find?_cons_of_neg _ hc]
      simp only [textScan]
      rw [if_neg hcp]
      exact ih (i + 1)

/-- C4: for an ELF image with a present program-header view anchored at
`base`, `GetTextRange` returns `(p_vaddr, p_memsz)` of the first
program-header record, in table order, whose half-open 32-bit interval
`[p_vaddr, (p_vaddr + p_memsz) mod 2^32)` contains the header's entry
point (the loop condition `phContains`); if no record contains it, or the
image is console format, or the view is absent, it returns (0, 0). -/
theorem getTextRange_first_match (e : ElfObject) :
    (∀ base : Nat, e.isPSXElf = false → e.proghead = some base →
      GetTextRange e =
        (match (List.range (decodeElfHeader e.data).e_phnum).find?
            (phContains e.data base (decodeElfHeader e.data).e_entry) with
         | some i => (phVaddr e.data base i, phMemsz e.data base i)
         | none => (0, 0))) ∧
    ((e.isPSXElf = true ∨ e.proghead = none) → GetTextRange e = (0, 0)) := by
  constructor
  · intro base h1 h2
    simp only [GetTextRange, h1, h2]
    rw [textScan_eq_find, List.range_eq_range']
  · intro h
    cases h with
    | inl h => simp [GetTextRange, h]
    | inr h =>
      cases hb : e.isPSXElf
      · simp [GetTextRange, h, hb]
      · simp [GetTextRange, h, hb]

/-- Witness for C4: the one-record test image yields its containing
segment's `(p_vaddr, p_memsz) = (256, 16)`, and a console-format object
yields (0, 0). -/
theorem getTextRange_first_match_witness :
    GetTextRange textElf = (256, 16) ∧
    GetTextRange ⟨psxBuf, true, none, none⟩ = (0, 0) := by
  constructor
  · have h := (getTextRange_first_match textElf).1 52 (by decide) (by decide)
    rw [h]; decide
  · exact (getTextRange_first_match ⟨psxBuf, true, none, none⟩).2 (Or.inl rfl)

lemma initElfHeaders_psx_true (d : List Nat) :
    InitElfHeaders ⟨d, true, none, none⟩ = ⟨d, true, none, none⟩ := rfl

lemma initElfHeaders_psx_false (d : List Nat) :
    InitElfHeaders ⟨d, false, none, none⟩ =
      ⟨d, false,
        if 0 < (decodeElfHeader d).e_phnum ∧ (decodeElfHeader d).e_phoff + 32 ≤ d.length
          then some (decodeElfHeader d).e_phoff else none,
        if 0 < (decodeElfHeader d).e_shnum ∧ (decodeElfHeader d).e_shoff + 40 ≤ d.length
          then some (decodeElfHeader d).e_shoff else none⟩ := by
  simp only [InitElfHeaders, phrSize, shrSize]
  by_cases h1 : 0 < (decodeElfHeader d).e_phnum ∧ (decodeElfHeader d).e_phoff + 32 ≤ d.length
  · by_cases h2 : 0 < (decodeElfHeader d).e_shnum ∧ (decodeElfHeader d).e_shoff + 40 ≤ d.length
    · simp [h1, h2]
    · simp [h1, h2]
  · by_cases h2 : 0 < (decodeElfHeader d).e_shnum ∧ (decodeElfHeader d).e_shoff + 40 ≤ d.length
    · simp [h1, h2]
    · simp [h1, h2]

lemma load_shape (psx : Bool) (e : ElfObject)
    (h : (∃ loc, OpenIsoFile loc psx = Except.ok e) ∨
         (∃ st rb, OpenFile st rb psx = Except.ok e)) :
    ∃ d : List Nat, e = InitElfHeaders ⟨d, psx, none, none⟩ := by
  rcases h with ⟨loc, hl⟩ | ⟨st, rb, hl⟩
  · cases loc with
    | none => simp [OpenIsoFile] at hl
    | some de =>
      cases hce : CheckElfSize (de.length_le : Int) with
      | some er => simp [OpenIsoFile, hce] at hl
      | none =>
        cases hcon : de.content with
        | none => simp [OpenIsoFile, hce, hcon] at hl
        | some bytes =>
          simp only [OpenIsoFile, hce, hcon, Except.ok.injEq] at hl
          exact ⟨bytes, hl.symm⟩
  · cases st with
    | none => simp [OpenFile] at hl
    | some sz =>
      by_cases hck : psx = false ∧ (CheckElfSize sz).isSome
      · simp [OpenFile, hck] at hl
      · cases hrb : rb with
        | none => simp [OpenFile, hck, hrb] at hl
        | some bytes =>
          simp [OpenFile, hck, hrb] at hl
          exact ⟨bytes, hl.symm⟩

/-- C9: after any successful load (disc-image or file), the program-header
view is present exactly when the load was ELF-format, `e_phnum > 0` and
`e_phoff + 32 ≤ buffer.length` (similarly the section-header view with
record size 40), so a present view never references past the buffer end;
for console-executable loads both views are absent; and
`HasProgramHeaders`/`HasSectionHeaders`/`HasHeaders` report exactly these
presences. -/
theorem headerViews_after_load (psx : Bool) (e : ElfObject)
    (h : (∃ loc, OpenIsoFile loc psx = Except.ok e) ∨
         (∃ st rb, OpenFile st rb psx = Except.ok e)) :
    (e.proghead = if psx = false ∧ 0 < (decodeElfHeader e.data).e_phnum ∧
        (decodeElfHeader e.data).e_phoff + 32 ≤ e.data.length
      then some (decodeElfHeader e.data).e_phoff else none) ∧
    (e.secthead = if psx = false ∧ 0 < (decodeElfHeader e.data).e_shnum ∧
        (decodeElfHeader e.data).e_shoff + 40 ≤ e.data.length
      then some (decodeElfHeader e.data).e_shoff else none) ∧
    (∀ off, e.proghead = some off → off + 32 ≤ e.data.length) ∧
    (∀ off, e.secthead = some off → off + 40 ≤ e.data.length) ∧
    (psx = true → e.proghead = none ∧ e.secthead = none) ∧
    HasProgramHeaders e = e.proghead.isSome ∧
    HasSectionHeaders e = e.secthead.isSome ∧
    HasHeaders e = (e.proghead.isSome && e.secthead.isSome) := by
  obtain ⟨d, he⟩ := load_shape psx e h
  subst he
  cases psx
  · have hp : (InitElfHeaders ⟨d, false, none, none⟩).proghead =
        (if 0 < (decodeElfHeader d).e_phnum ∧ (decodeElfHeader d).e_phoff + 32 ≤ d.length
          then some (decodeElfHeader d).e_phoff else none) := by
      rw [initElfHeaders_psx_false]
    have hs : (InitElfHeaders ⟨d, false, none, none⟩).secthead =
        (if 0 < (decodeElfHeader d).e_shnum ∧ (decodeElfHeader d).e_shoff + 40 ≤ d.length
          then some (decodeElfHeader d).e_shoff else none) := by
      rw [initElfHeaders_psx_false]
    have hd : (InitElfHeaders ⟨d, false, none, none⟩).data = d := by
      rw [initElfHeaders_psx_false]
    refine ⟨?_, ?_, ?_, ?_, ?_, rfl, rfl, rfl⟩
    · rw [hp, hd]; simp
    · rw [hs, hd]; simp
    · rw [hp, hd]
      intro off hoff
      by_cases hP : 0 < (decodeElfHeader d).e_phnum ∧ (decodeElfHeader d).e_phoff + 32 ≤ d.length
      · rw [if_pos hP] at hoff
        have h1 := Option.some.inj hoff
        have h2 := hP.2
        omega
      · rw [if_neg hP] at hoff
        exact Option.noConfusion hoff
    · rw [hs, hd]
      intro off hoff
      by_cases hP : 0 < (decodeElfHeader d).e_shnum ∧ (decodeElfHeader d).e_shoff + 40 ≤ d.length
      · rw [if_pos hP] at hoff
        have h1 := Option.some.inj hoff
        have h2 := hP.2
        omega
      · rw [if_neg hP] at hoff
        exact Option.noConfusion hoff
    · intro hcontra
      exact absurd hcontra (by decide)
  · rw [initElfHeaders_psx_true]
    refine ⟨by simp, by simp, ?_, ?_, fun _ => ⟨rfl, rfl⟩, rfl, rfl, rfl⟩
    · intro off hoff
      exact Option.noConfusion hoff
    · intro off hoff
      exact Option.noConfusion hoff

/-- Witness for C9: loading the 84-byte test ELF from a disc image yields a
program-header view anchored at offset 52 (within bounds), reported by
`HasProgramHeaders`. -/
theorem headerViews_after_load_witness :
    textElf.proghead = some 52 ∧ HasProgramHeaders textElf = true := by
  have h := headerViews_after_load false textElf
    (Or.inl ⟨some ⟨84, some textElfData⟩, by decide⟩)
  constructor
  · rw [h.1]; decide
  · rw [h.2.2.2.2.2.1, h.1]; decide

/-- C10: evidence that the section-header dump is NOT bounds-checked.  On
the 92-byte image `badSectData` the dump's guard passes (the view is present
and `e_shoff = 52 ≤ 92`), yet the byte index it dereferences for entry 0's
name — `sh_offset` of the string-table entry plus `sh_name`, with no clamp
in the code — is 65535, far past the end of the buffer. -/
theorem loadSectionHeaders_oob :
    loadSectionHeadersRuns badSectElf = true ∧
    (decodeElfHeader badSectElf.data).e_shnum = 1 ∧
    badSectElf.secthead = some 52 ∧
    sectionNameReadIndex badSectElf.data 52 0 = 65535 ∧
    badSectElf.data.length = 92 ∧
    ¬ sectionNameReadIndex badSectElf.data 52 0 < badSectElf.data.length := by
  decide
